import Mathlib

/-!
Shallow embedding of the supervision core of pve2otelcol, package `pve`
(src/unnamed/part_005, the current revision of pve.go; line numbers below
refer to that file).  External effects (subprocess execution, the OTLP
logger, JSON decoding, slog output) are modelled as oracle parameters and
an explicit event trace.
-/

namespace pve

/-- Mirror of the `VM` struct (part_005 lines 21-31).
`Typ` is the source field `Type` (a Lean keyword).  `Logger` is the
`*ologgers.OLogger` pointer, modelled as an allocation token (`none` = nil
pointer, i.e. logger creation failed).  `StopProcess` is the stored
`context.CancelFunc`, modelled as the retry-round number that created it
(`none` = nil).  `LastError` holds the message of the last recorded error
(`none` = nil pointer). -/
structure VM where
  Id : Int
  Name : String
  Typ : String
  MonitorCmd : String
  MonitorArgs : List String
  Running : Bool
  Logger : Option Nat
  StopProcess : Option Nat
  LastError : Option String
deriving DecidableEq

/-- The configuration fields of `config.Config` consumed by the pve package. -/
structure Config where
  RefreshInterval : Int
  CmdRetryTimes : Int
  CmdRetryDelay : Int
deriving DecidableEq

/-- Observable side effects of the pve package, recorded as a trace. -/
inductive Ev where
  /-- `go p.RunKeptAliveProcess(vm)` spawned (line 253). -/
  | startSup (id : Int)
  /-- `StopVMMonitoring(id)` entered (line 258). -/
  | stopCall (id : Int)
  /-- the stored `vm.StopProcess()` cancel function invoked (line 262). -/
  | cancel (id : Int)
  /-- retry warning logged (line 101). -/
  | warnRetry
  /-- `time.Sleep` of the retry delay (line 103). -/
  | sleep (secs : Int)
  /-- one monitoring run spawned: `go p.runVMMonitoring(...)` (line 109). -/
  | attempt (round : Nat)
  /-- JSON parse warning logged (line 73). -/
  | warnJson
  /-- "failure running monitoring command" logged (line 86). -/
  | errRun
  /-- "failure listing LXCs" logged (line 127). -/
  | errListLXCs
deriving DecidableEq

/-- Go `map[int]*VM` (`VMs`, line 34), modelled as an association list. -/
abbrev Registry := List (Int × VM)

/-- The keys of a registry. -/
def keys (reg : Registry) : List Int := reg.map fun q => q.1

/-- Go map lookup `m[id]`. -/
def rlook : Registry → Int → Option VM
  | [], _ => none
  | (i, v) :: rest, id => if i = id then some v else rlook rest id

/-- Go map assignment `m[id] = vm` (replace if present, else add). -/
def rinsert : Registry → Int → VM → Registry
  | [], id, vm => [(id, vm)]
  | (i, v) :: rest, id, vm =>
    if i = id then (i, vm) :: rest else (i, v) :: rinsert rest id vm

/-- Go `delete(m, id)`. -/
def rerase (reg : Registry) (id : Int) : Registry :=
  reg.filter fun q => q.1 != id

/-- Every entry is stored under its own `Id` (true of every map the source
builds, since assignments are always `m[vm.Id] = vm`). -/
def keysMatch (reg : Registry) : Prop := ∀ q ∈ reg, (q.2).Id = q.1

/-- Well-formed registry: unique keys (a Go map) and entries keyed by
their own `Id`. -/
def regWF (reg : Registry) : Prop := (keys reg).Nodup ∧ keysMatch reg

/-- A probe result as `CurrentLXCs`/`CurrentVMs` produce it: every
descriptor is keyed by its own `Id` and carries a nil `Logger`. -/
def freshDescr (probe : Registry) : Prop :=
  ∀ q ∈ probe, (q.2).Id = q.1 ∧ (q.2).Logger = none

instance (reg : Registry) : Decidable (keysMatch reg) := by
  unfold keysMatch; infer_instance

instance (reg : Registry) : Decidable (regWF reg) := by
  unfold regWF; infer_instance

instance (probe : Registry) : Decidable (freshDescr probe) := by
  unfold freshDescr; infer_instance

/-! ### Workload probe: `CurrentLXCs` (part_005 lines 122-165) -/

/-- The whitespace test of Go `unicode.IsSpace` restricted to Latin-1
(the characters `pct list` output can contain). -/
def goIsSpace (c : Char) : Bool :=
  c = ' ' || c = '\t' || c = '\n' || c = '\x0b' || c = '\x0c' || c = '\r' ||
  c = '\x85' || c = '\xa0'

/-- Go `strings.Fields`: split around runs of whitespace. -/
def goFields (s : String) : List String :=
  (s.split goIsSpace).filter fun t => t ≠ ""

/-- Value of a non-empty all-decimal-digit character list, else `none`. -/
def decDigitsVal (cs : List Char) : Option Nat :=
  if cs = [] then none
  else if cs.all Char.isDigit then
    some (cs.foldl (fun n c => n * 10 + (c.toNat - 48)) 0)
  else none

/-- Model of Go `strconv.Atoi` on a 64-bit platform: optional sign, decimal
digits, error (here `none`) on empty input, stray characters or overflow
of the `int` range. -/
def goAtoi (s : String) : Option Int :=
  match s.toList with
  | '+' :: rest =>
    (decDigitsVal rest).bind fun n =>
      if n ≤ 9223372036854775807 then some (n : Int) else none
  | '-' :: rest =>
    (decDigitsVal rest).bind fun n =>
      if n ≤ 9223372036854775808 then some (-(n : Int)) else none
  | l =>
    (decDigitsVal l).bind fun n =>
      if n ≤ 9223372036854775807 then some (n : Int) else none

/-- The `VM` literal built for one accepted `pct list` row
(part_005 lines 146-162). -/
def lxcFromRow (id : Int) (strId name : String) : VM :=
  { Id := id
    Name := name
    Typ := "lxc"
    MonitorCmd := "pct"
    MonitorArgs := ["exec", strId, "--", "journalctl", "--lines", "0",
                    "--follow", "--output", "json"]
    Running := false
    Logger := none
    StopProcess := none
    LastError := none }

/-- One iteration of the line loop of `CurrentLXCs`
(part_005 lines 131-163). -/
def parseLXCLine (reg : Registry) (line : String) : Registry :=
  let items := goFields line
  if items.length < 3 then reg
  else
    let strId := items.getD 0 ""
    let state := items.getD 1 ""
    let name := items.getD 2 ""
    if state ≠ "running" then reg
    else
      match goAtoi strId with
      | none => reg
      | some id => rinsert reg id (lxcFromRow id strId name)

/-- The parsing part of `CurrentLXCs`: split the probe output on newlines
and fold the line loop over it (part_005 lines 130-164). -/
def parseLXCList (out : String) : Registry :=
  (out.splitOn "\n").foldl parseLXCLine []

/-- `CurrentLXCs` (part_005 lines 122-165): the probe command result is an
oracle (`Except` error or captured output).  On command failure the error
is logged and the empty map returned. -/
def CurrentLXCs (cmdRes : Except String String) : Registry × List Ev :=
  match cmdRes with
  | Except.error _ => ([], [Ev.errListLXCs])
  | Except.ok out => (parseLXCList out, [])

/-- Modelled from the spec's parsing policy: a row is accepted exactly
when it has at least 3 whitespace-delimited fields, its second field is
the literal "running" and its first field parses as an integer id; an
accepted row yields (id, first field, third field), a rejected row is
skipped. -/
def specRow (line : String) : Option (Int × String × String) :=
  let items := goFields line
  if items.length < 3 then none
  else if items.getD 1 "" ≠ "running" then none
  else
    match goAtoi (items.getD 0 "") with
    | none => none
    | some id => some (id, items.getD 0 "", items.getD 2 "")

/-- Modelled from the spec: the accepted rows, in order.  Used as the
refinement target the source parser is compared against. -/
def specRunningRows (out : String) : List (Int × String × String) :=
  (out.splitOn "\n").filterMap specRow

/-! ### Keep-alive supervisor: `runVMMonitoring` (part_005 lines 53-89)
and `RunKeptAliveProcess` (lines 92-119)

One monitoring run is modelled for the successful-spawn path (`StdoutPipe`
and `cmd.Start` return nil, lines 65-89): the subprocess behaviour is an
oracle giving the emitted stdout lines and the `cmd.Wait` result, and JSON
decoding (`json.Unmarshal`) is an oracle `String → Option α`.  The
`vm.Running` flag is written concurrently by `StopVMMonitoring`; its value
at the two read points (line 83 inside `runVMMonitoring`, line 111 in the
retry loop) is part of the oracle. -/

/-- What `vm.Logger.Log` receives for one line (lines 77 and 79). -/
inductive LogPayload (α : Type) where
  | raw (line : String)
  | structured (data : α)
deriving DecidableEq

/-- Behaviour of one monitoring subprocess run and of the concurrently
written `vm.Running` flag. -/
structure RoundEnv where
  /-- the lines the subprocess emits on stdout before exiting -/
  lines : List String
  /-- the `cmd.Wait()` result (line 82); `none` = nil error -/
  waitErr : Option String
  /-- value of `vm.Running` read at line 83 -/
  runningAtWait : Bool
  /-- value of `vm.Running` read at line 111 -/
  runningAtCheck : Bool
deriving DecidableEq

/-- The scanner loop of `runVMMonitoring` (lines 65-81): each line is
JSON-decoded; on failure the warning is logged only if `seenError` is
still false and the raw line is forwarded; on success the decoded value
is forwarded. -/
def routeLines {α : Type} (dec : String → Option α) :
    List String → Bool → List (LogPayload α) × List Ev
  | [], _ => ([], [])
  | line :: rest, seenError =>
    match dec line with
    | none =>
      let warn := if seenError then [] else [Ev.warnJson]
      let r := routeLines dec rest true
      (LogPayload.raw line :: r.1, warn ++ r.2)
    | some j =>
      let r := routeLines dec rest seenError
      (LogPayload.structured j :: r.1, r.2)

/-- `runVMMonitoring` after a successful spawn (lines 65-89): route the
stdout lines, then take the `cmd.Wait` error; if `vm.Running` was already
cleared the error is replaced by nil, otherwise the failure is logged.
Returns (forwarded payloads, log events, value sent on `finished`). -/
def runVMMonitoring {α : Type} (dec : String → Option α) (env : RoundEnv) :
    List (LogPayload α) × List Ev × Option String :=
  let r := routeLines dec env.lines false
  if env.runningAtWait then (r.1, r.2 ++ [Ev.errRun], env.waitErr)
  else (r.1, r.2, none)

/-- The fields of `*VM` the retry loop mutates. -/
structure SupState where
  StopProcess : Option Nat
  LastError : Option String
deriving DecidableEq

/-- The retry loop of `RunKeptAliveProcess` (lines 98-117): `round` is the
loop counter, `fuel` the remaining iterations (`CmdRetryTimes - round`).
Each iteration: warn and sleep when `round > 0`; store a fresh cancel
function in `vm.StopProcess`; spawn a monitoring run and wait for its
result; break when `vm.Running` has been cleared; else record a non-nil
error in `vm.LastError`. -/
def keptAliveLoop {α : Type} (cfg : Config) (dec : String → Option α)
    (envs : Nat → RoundEnv) : Nat → Nat → SupState → SupState × List Ev
  | _, 0, st => (st, [])
  | round, fuel + 1, st =>
    let pre := if round > 0 then [Ev.warnRetry, Ev.sleep cfg.CmdRetryDelay] else []
    let env := envs round
    let st1 : SupState := { st with StopProcess := some round }
    let m := runVMMonitoring dec env
    if env.runningAtCheck = false then
      (st1, pre ++ [Ev.attempt round] ++ m.2.1)
    else
      let st2 : SupState :=
        match m.2.2 with
        | some e => { st1 with LastError := some e }
        | none => st1
      let r := keptAliveLoop cfg dec envs (round + 1) fuel st2
      (r.1, pre ++ [Ev.attempt round] ++ m.2.1 ++ r.2)

/-- `RunKeptAliveProcess` (lines 92-119): fail immediately on an empty
monitoring command, else run the retry loop `CmdRetryTimes` times and
return nil.  Result: (returned error, final mutable VM fields, trace). -/
def RunKeptAliveProcess {α : Type} (cfg : Config) (dec : String → Option α)
    (envs : Nat → RoundEnv) (vm : VM) : Option String × SupState × List Ev :=
  let st0 : SupState := { StopProcess := vm.StopProcess, LastError := vm.LastError }
  if vm.MonitorCmd = "" then (some "missing monitoring command", st0, [])
  else
    let r := keptAliveLoop cfg dec envs 0 cfg.CmdRetryTimes.toNat st0
    (none, r.1, r.2)

/-- Number of monitoring runs spawned in a trace. -/
def attemptCount (evs : List Ev) : Nat :=
  evs.countP fun e => match e with | Ev.attempt _ => true | _ => false

/-- The trace `RunKeptAliveProcess` produces when every run exits at once
with an error while the workload stays marked running: one attempt block
per round, a retry warning and a delay before every attempt after the
first. -/
def failRunTrace (d : Int) (n : Nat) : List Ev :=
  (List.range n).flatMap fun r =>
    (if r > 0 then [Ev.warnRetry, Ev.sleep d] else []) ++ [Ev.attempt r, Ev.errRun]

/-! ### Registry operations (part_005 lines 231-295) -/

/-- `UpdateVM` (lines 231-245): when the id is unknown, create its logger
(the `ologgers.New` outcome is the oracle `newLogger`; `none` models a nil
logger after a creation error), store the logger on the received VM and
register it.  Returns the received VM (`return vm`, line 244). -/
def UpdateVM (newLogger : Int → Option Nat) (reg : Registry) (vm : VM) :
    Registry × VM :=
  match rlook reg vm.Id with
  | some _ => (reg, vm)
  | none =>
    let vm1 : VM := { vm with Logger := newLogger vm.Id }
    (rinsert reg vm.Id vm1, vm1)

/-- `StartVMMonitoring` (lines 248-255): `UpdateVM`, then — on the same
object the caller passed, which is the registered one exactly when the id
was new — if the logger is non-nil and the VM not already running, mark it
running and spawn `RunKeptAliveProcess`.  When the id was already known
the argument is a probe-fresh object distinct from the registered one, so
the check reads the argument and the registry is not touched. -/
def StartVMMonitoring (newLogger : Int → Option Nat) (reg : Registry)
    (vm : VM) : Registry × List Ev :=
  match rlook reg vm.Id with
  | some _ =>
    if vm.Logger.isSome && !vm.Running then (reg, [Ev.startSup vm.Id])
    else (reg, [])
  | none =>
    let vm1 : VM := { vm with Logger := newLogger vm.Id }
    if vm1.Logger.isSome && !vm1.Running then
      (rinsert reg vm.Id { vm1 with Running := true }, [Ev.startSup vm.Id])
    else (rinsert reg vm.Id vm1, [])

/-- `StopVMMonitoring` (lines 258-266): when the id is known, invoke the
stored cancel function if non-nil and clear the running flag.  The stored
`StopProcess` handle itself is left in place. -/
def StopVMMonitoring (reg : Registry) (id : Int) : Registry × List Ev :=
  match rlook reg id with
  | none => (reg, [Ev.stopCall id])
  | some vm =>
    let evs := if vm.StopProcess.isSome then [Ev.stopCall id, Ev.cancel id]
               else [Ev.stopCall id]
    (rinsert reg id { vm with Running := false }, evs)

/-- `RemoveVM` (lines 269-277): stop the monitoring, then delete the
entry. -/
def RemoveVM (reg : Registry) (id : Int) : Registry × List Ev :=
  let s := StopVMMonitoring reg id
  (rerase s.1 id, s.2)

/-- The first loop of `RefreshVMsMonitoring` (lines 282-284): start
monitoring for every probed descriptor. -/
def startAll (newLogger : Int → Option Nat) (reg : Registry) :
    List (Int × VM) → Registry × List Ev
  | [] => (reg, [])
  | q :: rest =>
    let s := StartVMMonitoring newLogger reg q.2
    let r := startAll newLogger s.1 rest
    (r.1, s.2 ++ r.2)

/-- The removal loop of `RefreshVMsMonitoring` (lines 292-294). -/
def removeAll (reg : Registry) : List Int → Registry × List Ev
  | [] => (reg, [])
  | id :: rest =>
    let s := RemoveVM reg id
    let r := removeAll s.1 rest
    (r.1, s.2 ++ r.2)

/-- The `remove` slice of `RefreshVMsMonitoring` (lines 286-291): the
`Id`s of the known VMs whose key the probe result does not contain. -/
def vanishedIds (reg probe : Registry) : List Int :=
  (reg.filter fun q => (rlook probe q.1).isNone).map fun q => (q.2).Id

/-- `RefreshVMsMonitoring` (lines 280-295), one reconciliation pass over a
given probe result: start monitoring for every probed descriptor, collect
the `Id`s of known VMs whose key the probe did not report, and remove
them. -/
def RefreshVMsMonitoring (newLogger : Int → Option Nat)
    (reg probe : Registry) : Registry × List Ev :=
  let s := startAll newLogger reg probe
  let r := removeAll s.1 (vanishedIds s.1 probe)
  (r.1, s.2 ++ r.2)

/-! ### The `Pve` object, `Start` and `Stop` (part_005 lines 36-51 and
297-339) -/

/-- Mirror of the `Pve` struct (lines 37-42): `ticker` and `quitTicker`
are nilable pointers, modelled as `Option Unit`. -/
structure Pve where
  cfg : Config
  knownVMs : Registry
  ticker : Option Unit
  quitTicker : Option Unit
deriving DecidableEq

/-- `New` (lines 45-51). -/
def New (cfg : Config) : Pve :=
  { cfg := cfg, knownVMs := [], ticker := none, quitTicker := none }

/-- A Go runtime panic from dereferencing a nil pointer. -/
inductive GoPanic where
  /-- `p.ticker.Stop()` with `p.ticker == nil` (line 334) -/
  | nilTicker
  /-- `*p.quitTicker <- true` with `p.quitTicker == nil` (line 335) -/
  | nilQuitTicker
deriving DecidableEq

/-- `periodicRefresh` (lines 297-319): run one pass immediately; when the
refresh interval is zero return without creating the ticker, else create
the ticker and quit channel (the spawned timer goroutine itself is not
modelled). -/
def periodicRefresh (newLogger : Int → Option Nat) (p : Pve)
    (probe : Registry) : Pve × List Ev :=
  let r := RefreshVMsMonitoring newLogger p.knownVMs probe
  let p1 : Pve := { p with knownVMs := r.1 }
  if p1.cfg.RefreshInterval = 0 then (p1, r.2)
  else ({ p1 with ticker := some (), quitTicker := some () }, r.2)

/-- `Start` (lines 322-329): do nothing if the ticker already exists, else
run `periodicRefresh`. -/
def Start (newLogger : Int → Option Nat) (p : Pve) (probe : Registry) :
    Pve × List Ev :=
  if p.ticker.isSome then (p, []) else periodicRefresh newLogger p probe

/-- `Stop` (lines 332-339): `p.ticker.Stop()` dereferences the ticker
pointer, so a nil ticker panics; likewise `*p.quitTicker`.  Otherwise
every known VM is removed. -/
def Stop (p : Pve) : Except GoPanic (Pve × List Ev) :=
  match p.ticker with
  | none => Except.error GoPanic.nilTicker
  | some _ =>
    match p.quitTicker with
    | none => Except.error GoPanic.nilQuitTicker
    | some _ =>
      let r := removeAll p.knownVMs (keys p.knownVMs)
      Except.ok ({ p with knownVMs := r.1 }, r.2)

/-! ### Association-list lemmas -/

theorem keys_nil : keys [] = [] := rfl

theorem keys_cons {i : Int} {v : VM} {rest : Registry} :
    keys ((i, v) :: rest) = i :: keys rest := rfl

theorem mem_keys {reg : Registry} {id : Int} :
    id ∈ keys reg ↔ ∃ vm, (id, vm) ∈ reg := by
  constructor
  · intro h
    obtain ⟨⟨i, v⟩, hmem, hq⟩ := List.mem_map.mp h
    exact ⟨v, by simpa [← hq] using hmem⟩
  · rintro ⟨vm, h⟩
    exact List.mem_map.mpr ⟨(id, vm), h, rfl⟩

theorem rlook_isSome_iff {reg : Registry} {id : Int} :
    (rlook reg id).isSome ↔ id ∈ keys reg := by
  induction reg with
  | nil => simp [rlook, keys]
  | cons q rest ih =>
    obtain ⟨i, v⟩ := q
    by_cases h : i = id
    · subst h; simp [rlook, keys]
    · simp [rlook, keys, h, ih, Ne.symm h]

theorem rlook_eq_none_iff {reg : Registry} {id : Int} :
    rlook reg id = none ↔ id ∉ keys reg := by
  rw [← rlook_isSome_iff, Option.not_isSome_iff_eq_none]

theorem rlook_mem {reg : Registry} {id : Int} {vm : VM}
    (h : rlook reg id = some vm) : (id, vm) ∈ reg := by
  induction reg with
  | nil => simp [rlook] at h
  | cons q rest ih =>
    obtain ⟨i, v⟩ := q
    by_cases hi : i = id
    · subst hi
      simp [rlook] at h
      subst h
      exact List.mem_cons_self _ _
    · simp [rlook, hi] at h
      exact List.mem_cons_of_mem _ (ih h)

theorem keys_rinsert_of_mem {reg : Registry} {id : Int} (vm : VM)
    (h : id ∈ keys reg) : keys (rinsert reg id vm) = keys reg := by
  induction reg with
  | nil => simp [keys_nil] at h
  | cons q rest ih =>
    obtain ⟨i, v⟩ := q
    by_cases hi : i = id
    · subst hi; simp [rinsert, keys_cons]
    · have h' : id ∈ keys rest := by
        rw [keys_cons, List.mem_cons] at h
        rcases h with h | h
        · exact absurd h.symm hi
        · exact h
      simp [rinsert, keys_cons, hi, ih h']

theorem keys_rinsert_of_not_mem {reg : Registry} {id : Int} (vm : VM)
    (h : id ∉ keys reg) : keys (rinsert reg id vm) = keys reg ++ [id] := by
  induction reg with
  | nil => simp [rinsert, keys_nil, keys_cons]
  | cons q rest ih =>
    obtain ⟨i, v⟩ := q
    have hi : i ≠ id := by
      intro hEq
      exact h (by rw [keys_cons, hEq]; exact List.mem_cons_self _ _)
    have h' : id ∉ keys rest := fun hmem => h (by
      rw [keys_cons]; exact List.mem_cons_of_mem _ hmem)
    simp [rinsert, keys_cons, hi, ih h']

theorem mem_keys_rinsert {reg : Registry} {id j : Int} {vm : VM} :
    j ∈ keys (rinsert reg id vm) ↔ j ∈ keys reg ∨ j = id := by
  by_cases h : id ∈ keys reg
  · rw [keys_rinsert_of_mem vm h]
    constructor
    · exact Or.inl
    · rintro (hj | rfl) <;> [exact hj; exact h]
  · rw [keys_rinsert_of_not_mem vm h]
    simp

theorem nodup_keys_rinsert {reg : Registry} {id : Int} (vm : VM)
    (h : (keys reg).Nodup) : (keys (rinsert reg id vm)).Nodup := by
  by_cases hm : id ∈ keys reg
  · rwa [keys_rinsert_of_mem vm hm]
  · rw [keys_rinsert_of_not_mem vm hm]
    simpa [List.nodup_append] using ⟨h, hm⟩

theorem rlook_rinsert_self {reg : Registry} {id : Int} {vm : VM} :
    rlook (rinsert reg id vm) id = some vm := by
  induction reg with
  | nil => simp [rinsert, rlook]
  | cons q rest ih =>
    obtain ⟨i, v⟩ := q
    by_cases hi : i = id
    · subst hi; simp [rinsert, rlook]
    · simp [rinsert, rlook, hi, ih]

theorem rlook_rinsert_ne {reg : Registry} {id j : Int} {vm : VM}
    (h : j ≠ id) : rlook (rinsert reg id vm) j = rlook reg j := by
  induction reg with
  | nil => simp [rinsert, rlook, Ne.symm h]
  | cons q rest ih =>
    obtain ⟨i, v⟩ := q
    by_cases hi : i = id
    · subst hi
      simp [rinsert, rlook, Ne.symm h]
    · by_cases hij : i = j
      · subst hij; simp [rinsert, rlook, hi]
      · simp [rinsert, rlook, hi, hij, ih]

theorem keysMatch_rinsert {reg : Registry} {id : Int} {vm : VM}
    (h : keysMatch reg) (hvm : vm.Id = id) : keysMatch (rinsert reg id vm) := by
  induction reg with
  | nil => simpa [rinsert, keysMatch] using hvm
  | cons q rest ih =>
    obtain ⟨i, v⟩ := q
    have hrest : keysMatch rest := fun q hq => h q (List.mem_cons_of_mem _ hq)
    by_cases hi : i = id
    · subst hi
      intro q hq
      simp [rinsert] at hq
      rcases hq with rfl | hq
      · simpa using hvm
      · exact h q (List.mem_cons_of_mem _ hq)
    · intro q hq
      simp [rinsert, hi] at hq
      rcases hq with rfl | hq
      · exact h (i, v) (List.mem_cons_self _ _)
      · exact ih hrest q hq

theorem keys_rerase {reg : Registry} {id : Int} :
    keys (rerase reg id) = (keys reg).filter (fun k => k != id) := by
  induction reg with
  | nil => simp [rerase, keys]
  | cons q rest ih =>
    obtain ⟨i, v⟩ := q
    by_cases hi : i = id
    · subst hi; simpa [rerase, keys] using ih
    · simpa [rerase, keys, hi] using ih

theorem mem_keys_rerase {reg : Registry} {id j : Int} :
    j ∈ keys (rerase reg id) ↔ j ∈ keys reg ∧ j ≠ id := by
  simp [keys_rerase, List.mem_filter]

theorem nodup_keys_rerase {reg : Registry} {id : Int}
    (h : (keys reg).Nodup) : (keys (rerase reg id)).Nodup := by
  rw [keys_rerase]; exact h.filter _

theorem keysMatch_rerase {reg : Registry} {id : Int}
    (h : keysMatch reg) : keysMatch (rerase reg id) := by
  intro q hq
  exact h q (List.mem_of_mem_filter hq)

theorem rlook_rerase_ne {reg : Registry} {id j : Int} (h : j ≠ id) :
    rlook (rerase reg id) j = rlook reg j := by
  induction reg with
  | nil => simp [rerase]
  | cons q rest ih =>
    obtain ⟨i, v⟩ := q
    by_cases hi : i = id
    · subst hi
      simpa [rerase, rlook, Ne.symm h] using ih
    · by_cases hij : i = j
      · subst hij; simp [rerase, rlook, hi]
      · simpa [rerase, rlook, hi, hij] using ih

theorem keys_eq_nil_iff {reg : Registry} : keys reg = [] ↔ reg = [] := by
  cases reg <;> simp [keys]

/-! ### Lemmas about the stop and removal paths -/

theorem keys_stop {reg : Registry} {id : Int} :
    keys (StopVMMonitoring reg id).1 = keys reg := by
  unfold StopVMMonitoring
  cases h : rlook reg id with
  | none => rfl
  | some vm =>
    have hm : id ∈ keys reg := rlook_isSome_iff.mp (by simp [h])
    simpa using keys_rinsert_of_mem _ hm

theorem keysMatch_stop {reg : Registry} {id : Int} (h : keysMatch reg) :
    keysMatch (StopVMMonitoring reg id).1 := by
  unfold StopVMMonitoring
  cases hl : rlook reg id with
  | none => exact h
  | some vm =>
    have hid : vm.Id = id := h _ (rlook_mem hl)
    exact keysMatch_rinsert h (by simpa using hid)

theorem rlook_stop_self {reg : Registry} {id : Int} {vm : VM}
    (h : rlook reg id = some vm) :
    rlook (StopVMMonitoring reg id).1 id = some { vm with Running := false } := by
  unfold StopVMMonitoring
  rw [h]
  simpa using rlook_rinsert_self

theorem stop_evs {reg : Registry} {id : Int} :
    (StopVMMonitoring reg id).2 = [Ev.stopCall id] ∨
    (StopVMMonitoring reg id).2 = [Ev.stopCall id, Ev.cancel id] := by
  unfold StopVMMonitoring
  cases rlook reg id with
  | none => exact Or.inl rfl
  | some vm =>
    by_cases h : vm.StopProcess.isSome
    · exact Or.inr (by simp [h])
    · exact Or.inl (by simp [h])

theorem stop_count_stopCall {reg : Registry} {id j : Int} :
    (StopVMMonitoring reg id).2.count (Ev.stopCall j) =
      if j = id then 1 else 0 := by
  rcases @stop_evs reg id with h | h <;>
    rw [h] <;> by_cases hj : j = id <;> simp [List.count_cons, hj, Ev.stopCall.injEq]

theorem keys_RemoveVM {reg : Registry} {id : Int} :
    keys (RemoveVM reg id).1 = (keys reg).filter (fun k => k != id) := by
  unfold RemoveVM
  simp [keys_rerase, keys_stop]

theorem mem_keys_RemoveVM {reg : Registry} {id j : Int} :
    j ∈ keys (RemoveVM reg id).1 ↔ j ∈ keys reg ∧ j ≠ id := by
  simp [keys_RemoveVM, List.mem_filter]

theorem nodup_keys_RemoveVM {reg : Registry} {id : Int}
    (h : (keys reg).Nodup) : (keys (RemoveVM reg id).1).Nodup := by
  rw [keys_RemoveVM]; exact h.filter _

theorem keysMatch_RemoveVM {reg : Registry} {id : Int} (h : keysMatch reg) :
    keysMatch (RemoveVM reg id).1 :=
  keysMatch_rerase (keysMatch_stop h)

theorem count_RemoveVM_stopCall {reg : Registry} {id j : Int} :
    (RemoveVM reg id).2.count (Ev.stopCall j) = if j = id then 1 else 0 := by
  unfold RemoveVM
  simpa using stop_count_stopCall

theorem mem_keys_removeAll {L : List Int} {reg : Registry} {j : Int} :
    j ∈ keys (removeAll reg L).1 ↔ j ∈ keys reg ∧ j ∉ L := by
  induction L generalizing reg with
  | nil => simp [removeAll]
  | cons id rest ih =>
    simp only [removeAll, ih, mem_keys_RemoveVM, List.mem_cons]
    constructor
    · rintro ⟨⟨hj, hne⟩, hrest⟩
      exact ⟨hj, by rintro (rfl | hmem) <;> [exact hne rfl; exact hrest hmem]⟩
    · rintro ⟨hj, hnot⟩
      exact ⟨⟨hj, fun hEq => hnot (Or.inl hEq)⟩, fun hmem => hnot (Or.inr hmem)⟩

theorem nodup_keys_removeAll {L : List Int} {reg : Registry}
    (h : (keys reg).Nodup) : (keys (removeAll reg L).1).Nodup := by
  induction L generalizing reg with
  | nil => simpa [removeAll]
  | cons id rest ih => exact ih (nodup_keys_RemoveVM h)

theorem keysMatch_removeAll {L : List Int} {reg : Registry}
    (h : keysMatch reg) : keysMatch (removeAll reg L).1 := by
  induction L generalizing reg with
  | nil => simpa [removeAll]
  | cons id rest ih => exact ih (keysMatch_RemoveVM h)

theorem count_removeAll_stopCall {L : List Int} {reg : Registry} {j : Int} :
    (removeAll reg L).2.count (Ev.stopCall j) = L.count j := by
  induction L generalizing reg with
  | nil => simp [removeAll]
  | cons id rest ih =>
    simp only [removeAll, List.count_append, ih, count_RemoveVM_stopCall,
      List.count_cons]
    by_cases hj : j = id
    · simp [hj, Nat.add_comm]
    · simp [hj, Ne.symm hj, Nat.add_comm]

theorem removeAll_nil {reg : Registry} : removeAll reg [] = (reg, []) := rfl

/-! ### Lemmas about the start path -/

theorem start_fst_of_present {o : Int → Option Nat} {reg : Registry} {vm : VM}
    (h : (rlook reg vm.Id).isSome) :
    (StartVMMonitoring o reg vm).1 = reg := by
  unfold StartVMMonitoring
  obtain ⟨w, hw⟩ := Option.isSome_iff_exists.mp h
  rw [hw]
  by_cases hc : vm.Logger.isSome && !vm.Running <;> simp [hc]

theorem start_of_present_no_logger {o : Int → Option Nat} {reg : Registry}
    {vm : VM} {w : VM} (h : rlook reg vm.Id = some w) (hlog : vm.Logger = none) :
    StartVMMonitoring o reg vm = (reg, []) := by
  unfold StartVMMonitoring
  rw [h]
  simp [hlog]

theorem mem_keys_start {o : Int → Option Nat} {reg : Registry} {vm : VM}
    {j : Int} :
    j ∈ keys (StartVMMonitoring o reg vm).1 ↔ j ∈ keys reg ∨ j = vm.Id := by
  unfold StartVMMonitoring
  cases h : rlook reg vm.Id with
  | some w =>
    have hm : vm.Id ∈ keys reg := rlook_isSome_iff.mp (by simp [h])
    by_cases hc : vm.Logger.isSome && !vm.Running <;>
      simp [hc] <;> (rintro rfl; exact hm)
  | none =>
    by_cases hc : (o vm.Id).isSome && !vm.Running <;>
      simp [hc, mem_keys_rinsert]

theorem nodup_keys_start {o : Int → Option Nat} {reg : Registry} {vm : VM}
    (h : (keys reg).Nodup) : (keys (StartVMMonitoring o reg vm).1).Nodup := by
  unfold StartVMMonitoring
  cases hl : rlook reg vm.Id with
  | some w =>
    by_cases hc : vm.Logger.isSome && !vm.Running <;> simpa [hc]
  | none =>
    by_cases hc : (o vm.Id).isSome && !vm.Running <;>
      simp [hc] <;> exact nodup_keys_rinsert _ h

theorem keysMatch_start {o : Int → Option Nat} {reg : Registry} {vm : VM}
    (h : keysMatch reg) : keysMatch (StartVMMonitoring o reg vm).1 := by
  unfold StartVMMonitoring
  cases hl : rlook reg vm.Id with
  | some w =>
    by_cases hc : vm.Logger.isSome && !vm.Running <;> simpa [hc]
  | none =>
    by_cases hc : (o vm.Id).isSome && !vm.Running <;>
      simp [hc] <;> exact keysMatch_rinsert h rfl

theorem start_count_stopCall {o : Int → Option Nat} {reg : Registry} {vm : VM}
    {j : Int} : (StartVMMonitoring o reg vm).2.count (Ev.stopCall j) = 0 := by
  unfold StartVMMonitoring
  cases rlook reg vm.Id with
  | some w =>
    by_cases hc : vm.Logger.isSome && !vm.Running <;> simp [hc]
  | none =>
    by_cases hc : (o vm.Id).isSome && !vm.Running <;> simp [hc]

theorem mem_keys_startAll {o : Int → Option Nat} {P : List (Int × VM)}
    {reg : Registry} {j : Int} :
    j ∈ keys (startAll o reg P).1 ↔ j ∈ keys reg ∨ ∃ q ∈ P, (q.2).Id = j := by
  induction P generalizing reg with
  | nil => simp [startAll]
  | cons q rest ih =>
    simp only [startAll, ih, mem_keys_start, List.mem_cons]
    constructor
    · rintro ((hj | rfl) | ⟨r, hr, hid⟩)
      · exact Or.inl hj
      · exact Or.inr ⟨q, Or.inl rfl, rfl⟩
      · exact Or.inr ⟨r, Or.inr hr, hid⟩
    · rintro (hj | ⟨r, rfl | hr, hid⟩)
      · exact Or.inl (Or.inl hj)
      · exact Or.inl (Or.inr hid.symm)
      · exact Or.inr ⟨r, hr, hid⟩

theorem nodup_keys_startAll {o : Int → Option Nat} {P : List (Int × VM)}
    {reg : Registry} (h : (keys reg).Nodup) :
    (keys (startAll o reg P).1).Nodup := by
  induction P generalizing reg with
  | nil => simpa [startAll]
  | cons q rest ih => exact ih (nodup_keys_start h)

theorem keysMatch_startAll {o : Int → Option Nat} {P : List (Int × VM)}
    {reg : Registry} (h : keysMatch reg) : keysMatch (startAll o reg P).1 := by
  induction P generalizing reg with
  | nil => simpa [startAll]
  | cons q rest ih => exact ih (keysMatch_start h)

theorem count_startAll_stopCall {o : Int → Option Nat} {P : List (Int × VM)}
    {reg : Registry} {j : Int} :
    (startAll o reg P).2.count (Ev.stopCall j) = 0 := by
  induction P generalizing reg with
  | nil => simp [startAll]
  | cons q rest ih =>
    simp [startAll, List.count_append, ih, start_count_stopCall]

theorem startAll_of_all_present {o : Int → Option Nat} {P : List (Int × VM)}
    {reg : Registry}
    (h : ∀ q ∈ P, (rlook reg (q.2).Id).isSome ∧ (q.2).Logger = none) :
    startAll o reg P = (reg, []) := by
  induction P with
  | nil => rfl
  | cons q rest ih =>
    obtain ⟨hsome, hlog⟩ := h q (List.mem_cons_self _ _)
    obtain ⟨w, hw⟩ := Option.isSome_iff_exists.mp hsome
    have hstep : StartVMMonitoring o reg q.2 = (reg, []) :=
      start_of_present_no_logger hw hlog
    have hrest := ih fun r hr => h r (List.mem_cons_of_mem _ hr)
    simp [startAll, hstep, hrest]

/-! ### Lemmas about one reconciliation pass -/

theorem mem_keys_of_mem {reg : Registry} {q : Int × VM} (h : q ∈ reg) :
    q.1 ∈ keys reg :=
  List.mem_map.mpr ⟨q, h, rfl⟩

theorem rlook_isSome_of_mem {probe : Registry} {q : Int × VM}
    (h : q ∈ probe) : (rlook probe q.1).isSome :=
  rlook_isSome_iff.mpr (mem_keys_of_mem h)

theorem mem_vanishedIds {reg probe : Registry} {j : Int}
    (hkm : keysMatch reg) :
    j ∈ vanishedIds reg probe ↔ j ∈ keys reg ∧ rlook probe j = none := by
  unfold vanishedIds
  simp only [List.mem_map, List.mem_filter]
  constructor
  · rintro ⟨q, ⟨hq, hnone⟩, hid⟩
    have hkey : (q.2).Id = q.1 := hkm q hq
    have hj : j = q.1 := by rw [← hid, hkey]
    subst hj
    exact ⟨mem_keys_of_mem hq, by simpa [Option.isNone_iff_eq_none] using hnone⟩
  · rintro ⟨hj, hnone⟩
    obtain ⟨vm, hvm⟩ := mem_keys.mp hj
    exact ⟨(j, vm), ⟨hvm, by simp [hnone]⟩, hkm _ hvm⟩

theorem nodup_vanishedIds {reg probe : Registry} (hkm : keysMatch reg)
    (hnd : (keys reg).Nodup) : (vanishedIds reg probe).Nodup := by
  unfold vanishedIds
  have hcongr :
      (reg.filter fun q => (rlook probe q.1).isNone).map (fun q => (q.2).Id) =
      (reg.filter fun q => (rlook probe q.1).isNone).map (fun q => q.1) := by
    apply List.map_congr_left
    intro q hq
    exact hkm q (List.mem_of_mem_filter hq)
  rw [hcongr]
  exact hnd.sublist (List.Sublist.map _ (List.filter_sublist reg))

theorem refresh_fst (o : Int → Option Nat) (reg probe : Registry) :
    (RefreshVMsMonitoring o reg probe).1 =
      (removeAll (startAll o reg probe).1
        (vanishedIds (startAll o reg probe).1 probe)).1 := rfl

theorem refresh_snd (o : Int → Option Nat) (reg probe : Registry) :
    (RefreshVMsMonitoring o reg probe).2 =
      (startAll o reg probe).2 ++
      (removeAll (startAll o reg probe).1
        (vanishedIds (startAll o reg probe).1 probe)).2 := rfl

theorem mem_keys_refresh {o : Int → Option Nat} {reg probe : Registry}
    {j : Int} (hkm : keysMatch reg) :
    j ∈ keys (RefreshVMsMonitoring o reg probe).1 ↔
      j ∈ keys (startAll o reg probe).1 ∧ (rlook probe j).isSome := by
  have hkmS : keysMatch (startAll o reg probe).1 := keysMatch_startAll hkm
  rw [refresh_fst, mem_keys_removeAll]
  constructor
  · rintro ⟨hj, hnot⟩
    refine ⟨hj, ?_⟩
    by_cases hp : (rlook probe j).isSome
    · exact hp
    · exact absurd ((mem_vanishedIds hkmS).mpr
        ⟨hj, Option.not_isSome_iff_eq_none.mp hp⟩) hnot
  · rintro ⟨hj, hp⟩
    refine ⟨hj, fun hmem => ?_⟩
    obtain ⟨-, hnone⟩ := (mem_vanishedIds hkmS).mp hmem
    rw [hnone] at hp
    exact Bool.noConfusion hp

theorem nodup_keys_refresh {o : Int → Option Nat} {reg probe : Registry}
    (hnd : (keys reg).Nodup) :
    (keys (RefreshVMsMonitoring o reg probe).1).Nodup := by
  rw [refresh_fst]
  exact nodup_keys_removeAll (nodup_keys_startAll hnd)

theorem keysMatch_refresh {o : Int → Option Nat} {reg probe : Registry}
    (hkm : keysMatch reg) :
    keysMatch (RefreshVMsMonitoring o reg probe).1 := by
  rw [refresh_fst]
  exact keysMatch_removeAll (keysMatch_startAll hkm)

/-! ### Concrete fixtures used by witness theorems -/

/-- A logger-creation oracle that always succeeds. -/
def oracle0 : Int → Option Nat := fun _ => some 0

/-- A registered, running, supervised VM with the given id. -/
def vmK (id : Int) : VM :=
  { Id := id, Name := "w", Typ := "lxc", MonitorCmd := "pct",
    MonitorArgs := [], Running := true, Logger := some 3,
    StopProcess := some 0, LastError := none }

/-- A one-entry registry holding `vmK 5`. -/
def reg0 : Registry := [(5, vmK 5)]

/-- A one-row probe result reporting workload 100. -/
def probe0 : Registry := [(100, lxcFromRow 100 "100" "web")]

/-! ### Claims about the reconciliation pass -/

/-- C2: for every registry state and fixed probe result, running one
reconciliation pass twice in a row produces, on the second pass, no
actions and no trace at all (in particular no start and no stop), leaves
the registry exactly as after the first pass, and the registry has no
duplicate entries per id. -/
theorem C2_tick_idempotent (o : Int → Option Nat) (reg probe : Registry)
    (hreg : regWF reg) (hprobe : freshDescr probe) :
    RefreshVMsMonitoring o (RefreshVMsMonitoring o reg probe).1 probe
      = ((RefreshVMsMonitoring o reg probe).1, []) ∧
    (keys (RefreshVMsMonitoring o reg probe).1).Nodup := by
  obtain ⟨hnd, hkm⟩ := hreg
  have hkm1 : keysMatch (RefreshVMsMonitoring o reg probe).1 :=
    keysMatch_refresh hkm
  have hnd1 : (keys (RefreshVMsMonitoring o reg probe).1).Nodup :=
    nodup_keys_refresh hnd
  have hprobeIn : ∀ q ∈ probe,
      (rlook (RefreshVMsMonitoring o reg probe).1 (q.2).Id).isSome ∧
      (q.2).Logger = none := by
    intro q hq
    obtain ⟨hid, hlog⟩ := hprobe q hq
    refine ⟨?_, hlog⟩
    rw [rlook_isSome_iff, hid, mem_keys_refresh hkm]
    exact ⟨mem_keys_startAll.mpr (Or.inr ⟨q, hq, hid⟩), rlook_isSome_of_mem hq⟩
  have hstart : startAll o (RefreshVMsMonitoring o reg probe).1 probe
      = ((RefreshVMsMonitoring o reg probe).1, []) :=
    startAll_of_all_present hprobeIn
  have hvan : vanishedIds (RefreshVMsMonitoring o reg probe).1 probe = [] := by
    rw [List.eq_nil_iff_forall_not_mem]
    intro j hj
    obtain ⟨hjk, hjnone⟩ := (mem_vanishedIds hkm1).mp hj
    obtain ⟨-, hjsome⟩ := (mem_keys_refresh hkm).mp hjk
    rw [hjnone] at hjsome
    exact Bool.noConfusion hjsome
  refine ⟨?_, hnd1⟩
  rw [Prod.ext_iff]
  constructor
  · rw [refresh_fst, hstart]
    simp only [hvan, removeAll_nil]
  · rw [refresh_snd, hstart]
    simp only [hvan, removeAll_nil, List.append_nil]

/-- C5: an id present in the registry but absent from the probe result
receives exactly one `StopVMMonitoring` call during the pass, its entry
is gone afterwards, and every id left in the registry was reported by the
probe. -/
theorem C5_stop_then_vanish (o : Int → Option Nat) (reg probe : Registry)
    (id : Int) (hreg : regWF reg) (hin : id ∈ keys reg)
    (habs : rlook probe id = none) :
    (RefreshVMsMonitoring o reg probe).2.count (Ev.stopCall id) = 1 ∧
    rlook (RefreshVMsMonitoring o reg probe).1 id = none ∧
    ∀ j ∈ keys (RefreshVMsMonitoring o reg probe).1, (rlook probe j).isSome := by
  obtain ⟨hnd, hkm⟩ := hreg
  have hkmS : keysMatch (startAll o reg probe).1 := keysMatch_startAll hkm
  have hndS : (keys (startAll o reg probe).1).Nodup := nodup_keys_startAll hnd
  have hidS : id ∈ keys (startAll o reg probe).1 :=
    mem_keys_startAll.mpr (Or.inl hin)
  have hvan : id ∈ vanishedIds (startAll o reg probe).1 probe :=
    (mem_vanishedIds hkmS).mpr ⟨hidS, habs⟩
  refine ⟨?_, ?_, ?_⟩
  · rw [refresh_snd, List.count_append, count_startAll_stopCall,
      count_removeAll_stopCall, Nat.zero_add]
    exact List.count_eq_one_of_mem (nodup_vanishedIds hkmS hndS) hvan
  · rw [rlook_eq_none_iff]
    intro hj
    obtain ⟨-, hsome⟩ := (mem_keys_refresh hkm).mp hj
    rw [habs] at hsome
    exact Bool.noConfusion hsome
  · intro j hj
    exact ((mem_keys_refresh hkm).mp hj).2

/-- C7: a failing probe command logs the condition and returns the empty
workload map instead of an error, and a reconciliation pass over the
empty result completes, removing every known VM. -/
theorem C7_probe_fails_soft (e : String) (o : Int → Option Nat)
    (reg : Registry) (hreg : regWF reg) :
    CurrentLXCs (Except.error e) = ([], [Ev.errListLXCs]) ∧
    (RefreshVMsMonitoring o reg []).1 = [] := by
  refine ⟨rfl, ?_⟩
  obtain ⟨hnd, hkm⟩ := hreg
  rw [← keys_eq_nil_iff, List.eq_nil_iff_forall_not_mem]
  intro j hj
  obtain ⟨-, hsome⟩ := (mem_keys_refresh hkm).mp hj
  simp [rlook] at hsome

theorem C2_tick_idempotent_witness :
    RefreshVMsMonitoring oracle0 (RefreshVMsMonitoring oracle0 reg0 probe0).1 probe0
      = ((RefreshVMsMonitoring oracle0 reg0 probe0).1, []) ∧
    (keys (RefreshVMsMonitoring oracle0 reg0 probe0).1).Nodup :=
  C2_tick_idempotent oracle0 reg0 probe0 (by decide) (by decide)

theorem C5_stop_then_vanish_witness :
    (RefreshVMsMonitoring oracle0 reg0 probe0).2.count (Ev.stopCall 5) = 1 ∧
    rlook (RefreshVMsMonitoring oracle0 reg0 probe0).1 5 = none ∧
    ∀ j ∈ keys (RefreshVMsMonitoring oracle0 reg0 probe0).1,
      (rlook probe0 j).isSome :=
  C5_stop_then_vanish oracle0 reg0 probe0 5 (by decide) (by decide) (by decide)

theorem C7_probe_fails_soft_witness :
    CurrentLXCs (Except.error "exit status 1") = ([], [Ev.errListLXCs]) ∧
    (RefreshVMsMonitoring oracle0 reg0 []).1 = [] :=
  C7_probe_fails_soft "exit status 1" oracle0 reg0 (by decide)

/-! ### The probe parser refines the spec's row filter (C6) -/

theorem parseLXCLine_spec (reg : Registry) (line : String) :
    parseLXCLine reg line =
      match specRow line with
      | none => reg
      | some r => rinsert reg r.1 (lxcFromRow r.1 r.2.1 r.2.2) := by
  unfold parseLXCLine specRow
  dsimp only
  by_cases h1 : (goFields line).length < 3
  · rw [if_pos h1, if_pos h1]
  · rw [if_neg h1, if_neg h1]
    by_cases h2 : (goFields line).getD 1 "" = "running"
    · rw [if_neg (not_not_intro h2), if_neg (not_not_intro h2)]
      cases goAtoi ((goFields line).getD 0 "") <;> rfl
    · rw [if_pos h2, if_pos h2]

theorem foldl_parseLXCLine_spec {lines : List String} {acc : Registry} :
    lines.foldl parseLXCLine acc =
      (lines.filterMap specRow).foldl
        (fun reg r => rinsert reg r.1 (lxcFromRow r.1 r.2.1 r.2.2)) acc := by
  induction lines generalizing acc with
  | nil => rfl
  | cons l rest ih =>
    rw [List.foldl_cons, List.filterMap_cons, parseLXCLine_spec acc l]
    cases h : specRow l with
    | none => simpa [h] using ih
    | some r => simpa [h] using ih

theorem mem_keys_foldl_rinsert {rows : List (Int × String × String)}
    {acc : Registry} {j : Int} :
    j ∈ keys (rows.foldl
        (fun reg r => rinsert reg r.1 (lxcFromRow r.1 r.2.1 r.2.2)) acc) ↔
      j ∈ keys acc ∨ ∃ r ∈ rows, r.1 = j := by
  induction rows generalizing acc with
  | nil => simp
  | cons r rest ih =>
    rw [List.foldl_cons, ih]
    simp only [mem_keys_rinsert, List.mem_cons]
    constructor
    · rintro ((hj | rfl) | ⟨s, hs, hid⟩)
      · exact Or.inl hj
      · exact Or.inr ⟨r, Or.inl rfl, rfl⟩
      · exact Or.inr ⟨s, Or.inr hs, hid⟩
    · rintro (hj | ⟨s, rfl | hs, hid⟩)
      · exact Or.inl (Or.inl hj)
      · exact Or.inl (Or.inr hid.symm)
      · exact Or.inr ⟨s, hs, hid⟩

/-- C6: the probe parser returns exactly the rows the spec's policy
accepts: the result equals the map built from the accepted rows alone
(rejected rows — fewer than 3 fields, second field not "running",
non-integer first field — are skipped without aborting the remaining
rows), and an id is in the result precisely when some accepted row
carries it. -/
theorem C6_probe_rows_exact (out : String) :
    parseLXCList out =
      (specRunningRows out).foldl
        (fun reg r => rinsert reg r.1 (lxcFromRow r.1 r.2.1 r.2.2)) [] ∧
    ∀ id : Int, (rlook (parseLXCList out) id).isSome ↔
      ∃ r ∈ specRunningRows out, r.1 = id := by
  have hfold : parseLXCList out =
      (specRunningRows out).foldl
        (fun reg r => rinsert reg r.1 (lxcFromRow r.1 r.2.1 r.2.2)) [] := by
    unfold parseLXCList specRunningRows
    exact foldl_parseLXCLine_spec
  refine ⟨hfold, fun id => ?_⟩
  rw [rlook_isSome_iff, hfold, mem_keys_foldl_rinsert]
  simp [keys]

/-! ### C8: what upsert does to an existing entry -/

/-- C8 counterexample: for an id that is already registered, `UpdateVM`
does not return the existing stored entry — `return vm` (part_005 line
244) returns the received probe-fresh descriptor, whose logger field
differs from the stored entry's. -/
theorem C8_counterexample :
    ¬ ((UpdateVM oracle0 [(1, vmK 1)] (lxcFromRow 1 "1" "web")).2 = vmK 1) := by
  decide

/-- C8 (amended): for an id already present, `UpdateVM` leaves the
registry untouched and returns its argument unchanged (not the stored
entry), and `StartVMMonitoring` also leaves the registry untouched — so
the stored entry's logger handle, created by the single `ologgers.New`
call at first insertion, is never recreated or replaced for the lifetime
of the entry; on first insertion the entry is stored with that one
freshly created logger. -/
theorem C8_upsert_never_replaces_sink (o : Int → Option Nat)
    (reg : Registry) (vm : VM) :
    ((rlook reg vm.Id).isSome → UpdateVM o reg vm = (reg, vm)) ∧
    ((rlook reg vm.Id).isSome → (StartVMMonitoring o reg vm).1 = reg) ∧
    (rlook reg vm.Id = none →
      UpdateVM o reg vm =
        (rinsert reg vm.Id { vm with Logger := o vm.Id },
         { vm with Logger := o vm.Id })) := by
  refine ⟨?_, fun h => start_fst_of_present h, ?_⟩
  · intro h
    obtain ⟨w, hw⟩ := Option.isSome_iff_exists.mp h
    unfold UpdateVM
    rw [hw]
  · intro h
    unfold UpdateVM
    rw [h]

theorem C8_upsert_never_replaces_sink_witness :
    UpdateVM oracle0 [(1, vmK 1)] (lxcFromRow 1 "1" "web")
      = ([(1, vmK 1)], lxcFromRow 1 "1" "web") :=
  (C8_upsert_never_replaces_sink oracle0 [(1, vmK 1)]
    (lxcFromRow 1 "1" "web")).1 (by decide)

/-! ### C10: zero refresh interval makes Stop panic -/

/-- C10: with a zero refresh interval and no ticker yet, `Start` runs the
startup reconciliation pass but returns before creating the ticker, so
the following `Stop` dereferences the nil ticker pointer
(`p.ticker.Stop()`, line 334) and panics instead of draining. -/
theorem C10_zero_interval_stop_panics (o : Int → Option Nat) (p : Pve)
    (probe : Registry) (ht : p.ticker = none)
    (hz : p.cfg.RefreshInterval = 0) :
    (Start o p probe).1 =
      { p with knownVMs := (RefreshVMsMonitoring o p.knownVMs probe).1 } ∧
    (Start o p probe).1.ticker = none ∧
    Stop (Start o p probe).1 = Except.error GoPanic.nilTicker := by
  have hstart : Start o p probe =
      ({ p with knownVMs := (RefreshVMsMonitoring o p.knownVMs probe).1 },
       (RefreshVMsMonitoring o p.knownVMs probe).2) := by
    unfold Start periodicRefresh
    rw [ht]
    simp [hz]
  refine ⟨by rw [hstart], by rw [hstart, ht], ?_⟩
  rw [hstart]
  unfold Stop
  rw [show ({ p with knownVMs := (RefreshVMsMonitoring o p.knownVMs probe).1 } : Pve).ticker = p.ticker from rfl, ht]

/-! ### C9: line routing with raw fallback and a single warning -/

theorem routeLines_fst {α : Type} (dec : String → Option α) :
    ∀ (lines : List String) (seen : Bool),
      (routeLines dec lines seen).1 = lines.map (fun l =>
        match dec l with
        | some j => LogPayload.structured j
        | none => LogPayload.raw l) := by
  intro lines
  induction lines with
  | nil => intro seen; rfl
  | cons l rest ih =>
    intro seen
    cases h : dec l <;> simp [routeLines, h, ih]

theorem routeLines_warn_count {α : Type} (dec : String → Option α) :
    ∀ (lines : List String) (seen : Bool),
      (routeLines dec lines seen).2.count Ev.warnJson =
        if seen then 0
        else if lines.any (fun l => (dec l).isNone) then 1 else 0 := by
  intro lines
  induction lines with
  | nil => intro seen; cases seen <;> simp [routeLines]
  | cons l rest ih =>
    intro seen
    cases h : dec l with
    | none =>
      cases seen <;> simp [routeLines, h, List.count_append, ih, List.any_cons]
    | some j =>
      have hstep : (routeLines dec (l :: rest) seen).2 =
          (routeLines dec rest seen).2 := by
        simp [routeLines, h]
      rw [hstep, ih seen, List.any_cons, h]
      rw [Option.isNone_some, Bool.false_or]

/-- C9: every output line of the monitored subprocess is forwarded to the
sink — decoded when it decodes, as the raw string otherwise, in order,
never dropped — and the decode-failure warning appears exactly once in
the run's log when at least one line fails to decode, never once per
line. -/
theorem C9_raw_fallback_single_warning {α : Type} (dec : String → Option α)
    (env : RoundEnv) :
    (runVMMonitoring dec env).1 =
      env.lines.map (fun l =>
        match dec l with
        | some j => LogPayload.structured j
        | none => LogPayload.raw l) ∧
    (runVMMonitoring dec env).2.1.count Ev.warnJson =
      (if env.lines.any (fun l => (dec l).isNone) then 1 else 0) := by
  unfold runVMMonitoring
  by_cases hr : env.runningAtWait <;>
    simp [hr, routeLines_fst, routeLines_warn_count, List.count_append]

/-! ### The retry loop (C1, C3, C4) -/

theorem attemptCount_nil : attemptCount [] = 0 := rfl

theorem attemptCount_append {l₁ l₂ : List Ev} :
    attemptCount (l₁ ++ l₂) = attemptCount l₁ + attemptCount l₂ :=
  List.countP_append _ _ _

theorem attemptCount_routeLines {α : Type} (dec : String → Option α) :
    ∀ (lines : List String) (seen : Bool),
      attemptCount (routeLines dec lines seen).2 = 0 := by
  intro lines
  induction lines with
  | nil => intro seen; rfl
  | cons l rest ih =>
    intro seen
    cases h : dec l with
    | none =>
      have hstep : (routeLines dec (l :: rest) seen).2 =
          (if seen then [] else [Ev.warnJson]) ++ (routeLines dec rest true).2 := by
        simp [routeLines, h]
      rw [hstep, attemptCount_append, ih]
      cases seen <;> rfl
    | some j =>
      have hstep : (routeLines dec (l :: rest) seen).2 =
          (routeLines dec rest seen).2 := by
        simp [routeLines, h]
      rw [hstep, ih]

theorem attemptCount_mon {α : Type} (dec : String → Option α)
    (env : RoundEnv) : attemptCount (runVMMonitoring dec env).2.1 = 0 := by
  unfold runVMMonitoring
  by_cases hr : env.runningAtWait
  · simp only [hr, if_true]
    rw [attemptCount_append, attemptCount_routeLines]
    rfl
  · simp only [Bool.not_eq_true] at hr
    simp only [hr, Bool.false_eq_true, if_false]
    exact attemptCount_routeLines dec env.lines false

theorem attemptCount_pre {d : Int} {round : Nat} :
    attemptCount (if round > 0 then [Ev.warnRetry, Ev.sleep d] else []) = 0 := by
  by_cases h : round > 0 <;> simp [h, attemptCount]

/-- Combined effect of one non-breaking loop round on the mutable VM
fields: store the round's cancel function (line 108), record a non-nil
error (lines 114-116). -/
def stepState (st : SupState) (round : Nat) (err : Option String) : SupState :=
  match err with
  | some e => { st with StopProcess := some round, LastError := some e }
  | none => { st with StopProcess := some round }

theorem stepState_StopProcess (st : SupState) (round : Nat)
    (err : Option String) : (stepState st round err).StopProcess = some round := by
  cases err <;> rfl

theorem keptAliveLoop_zero {α : Type} (cfg : Config) (dec : String → Option α)
    (envs : Nat → RoundEnv) (round : Nat) (st : SupState) :
    keptAliveLoop cfg dec envs round 0 st = (st, []) := rfl

/-- One loop round in which `vm.Running` is observed false at the break
check (line 111): the loop stops after this attempt. -/
theorem keptAliveLoop_succ_stop {α : Type} (cfg : Config)
    (dec : String → Option α) (envs : Nat → RoundEnv) (round n : Nat)
    (st : SupState) (hc : (envs round).runningAtCheck = false) :
    keptAliveLoop cfg dec envs round (n + 1) st =
      ({ st with StopProcess := some round },
       (if round > 0 then [Ev.warnRetry, Ev.sleep cfg.CmdRetryDelay] else []) ++
       [Ev.attempt round] ++ (runVMMonitoring dec (envs round)).2.1) := by
  simp only [keptAliveLoop]
  rw [if_pos hc]

/-- One loop round in which `vm.Running` is still true at the break
check: record the state update and continue with the next round. -/
theorem keptAliveLoop_succ_go {α : Type} (cfg : Config)
    (dec : String → Option α) (envs : Nat → RoundEnv) (round n : Nat)
    (st : SupState) (hc : (envs round).runningAtCheck = true) :
    keptAliveLoop cfg dec envs round (n + 1) st =
      ((keptAliveLoop cfg dec envs (round + 1) n
          (stepState st round (runVMMonitoring dec (envs round)).2.2)).1,
       (if round > 0 then [Ev.warnRetry, Ev.sleep cfg.CmdRetryDelay] else []) ++
       [Ev.attempt round] ++ (runVMMonitoring dec (envs round)).2.1 ++
       (keptAliveLoop cfg dec envs (round + 1) n
          (stepState st round (runVMMonitoring dec (envs round)).2.2)).2) := by
  simp only [keptAliveLoop]
  rw [if_neg (by simp [hc])]
  cases hm : (runVMMonitoring dec (envs round)).2.2 <;>
    simp [stepState, hm]

/-- Shape of the failing-run trace, one block per round. -/
theorem keptAliveLoop_fail_trace {α : Type} (cfg : Config)
    (dec : String → Option α) (envs : Nat → RoundEnv)
    (h : ∀ r, (envs r).lines = [] ∧ (envs r).waitErr.isSome ∧
      (envs r).runningAtWait = true ∧ (envs r).runningAtCheck = true) :
    ∀ (fuel round : Nat) (st : SupState),
      (keptAliveLoop cfg dec envs round fuel st).2 =
        (List.range' round fuel).flatMap (fun r =>
          (if r > 0 then [Ev.warnRetry, Ev.sleep cfg.CmdRetryDelay] else []) ++
          [Ev.attempt r, Ev.errRun]) := by
  intro fuel
  induction fuel with
  | zero => intro round st; rfl
  | succ n ih =>
    intro round st
    obtain ⟨hl, hw, hrw, hrc⟩ := h round
    obtain ⟨e, he⟩ := Option.isSome_iff_exists.mp hw
    have hm : runVMMonitoring dec (envs round) = ([], [Ev.errRun], some e) := by
      unfold runVMMonitoring
      rw [hl, hrw, he]
      simp [routeLines]
    rw [keptAliveLoop_succ_go cfg dec envs round n st hrc, hm, ih]
    rw [List.range'_succ, List.flatMap_cons]
    simp [List.append_assoc]

theorem attemptCount_block_trace (d : Int) :
    ∀ (n s : Nat), attemptCount ((List.range' s n).flatMap (fun r =>
      (if r > 0 then [Ev.warnRetry, Ev.sleep d] else []) ++
      [Ev.attempt r, Ev.errRun])) = n := by
  intro n
  induction n with
  | zero => intro s; rfl
  | succ m ih =>
    intro s
    rw [List.range'_succ, List.flatMap_cons, attemptCount_append, ih,
      attemptCount_append, attemptCount_pre]
    have hone : attemptCount [Ev.attempt s, Ev.errRun] = 1 := rfl
    omega

/-- C1: when every run of the monitoring command exits at once with an
error while the workload stays marked running, the retry loop spawns
exactly `CmdRetryTimes` attempts — the first attempt counts against the
budget and a retry warning plus a `CmdRetryDelay`-second sleep precede
every attempt after the first — and `RunKeptAliveProcess` then returns
nil without further attempts. -/
theorem C1_retry_budget {α : Type} (cfg : Config) (dec : String → Option α)
    (envs : Nat → RoundEnv) (vm : VM) (hcmd : vm.MonitorCmd ≠ "")
    (_hN : 1 ≤ cfg.CmdRetryTimes)
    (h : ∀ r, (envs r).lines = [] ∧ (envs r).waitErr.isSome ∧
      (envs r).runningAtWait = true ∧ (envs r).runningAtCheck = true) :
    (RunKeptAliveProcess cfg dec envs vm).2.2 =
      failRunTrace cfg.CmdRetryDelay cfg.CmdRetryTimes.toNat ∧
    attemptCount (RunKeptAliveProcess cfg dec envs vm).2.2 =
      cfg.CmdRetryTimes.toNat ∧
    (RunKeptAliveProcess cfg dec envs vm).1 = none := by
  have hrun : RunKeptAliveProcess cfg dec envs vm =
      (none,
       (keptAliveLoop cfg dec envs 0 cfg.CmdRetryTimes.toNat
         { StopProcess := vm.StopProcess, LastError := vm.LastError }).1,
       (keptAliveLoop cfg dec envs 0 cfg.CmdRetryTimes.toNat
         { StopProcess := vm.StopProcess, LastError := vm.LastError }).2) := by
    unfold RunKeptAliveProcess
    rw [if_neg hcmd]
  have htr := keptAliveLoop_fail_trace cfg dec envs h cfg.CmdRetryTimes.toNat 0
    { StopProcess := vm.StopProcess, LastError := vm.LastError }
  have hfail : failRunTrace cfg.CmdRetryDelay cfg.CmdRetryTimes.toNat =
      (List.range' 0 cfg.CmdRetryTimes.toNat).flatMap (fun r =>
        (if r > 0 then [Ev.warnRetry, Ev.sleep cfg.CmdRetryDelay] else []) ++
        [Ev.attempt r, Ev.errRun]) := by
    unfold failRunTrace
    rw [List.range_eq_range']
  refine ⟨?_, ?_, by rw [hrun]⟩
  · rw [hrun, hfail]
    exact htr
  · rw [hrun]
    dsimp only
    rw [htr]
    exact attemptCount_block_trace cfg.CmdRetryDelay cfg.CmdRetryTimes.toNat 0

/-- From the first attempt on, the stored cancel handle is non-null. -/
theorem keptAliveLoop_handle {α : Type} (cfg : Config)
    (dec : String → Option α) (envs : Nat → RoundEnv) :
    ∀ (fuel round : Nat) (st : SupState), 1 ≤ fuel →
      ((keptAliveLoop cfg dec envs round fuel st).1.StopProcess).isSome := by
  intro fuel
  induction fuel with
  | zero => intro round st hf; exact absurd hf (by omega)
  | succ n ih =>
    intro round st _
    by_cases hc : (envs round).runningAtCheck = false
    · rw [keptAliveLoop_succ_stop cfg dec envs round n st hc]
      rfl
    · have hc' : (envs round).runningAtCheck = true := by
        cases hb : (envs round).runningAtCheck
        · exact absurd hb hc
        · rfl
      rw [keptAliveLoop_succ_go cfg dec envs round n st hc']
      cases n with
      | zero =>
        dsimp only
        rw [keptAliveLoop_zero]
        dsimp only
        rw [stepState_StopProcess]
        rfl
      | succ m => exact ih (round + 1) _ (by omega)

/-- The state of `vm.Running` at the break check of each round, together
with the loop's progress: if rounds before `r` continue and round `r`
observes the cleared flag, the loop performs exactly `r + 1` attempts and
its final `LastError` is the one accumulated over the first `r` rounds
alone. -/
theorem keptAliveLoop_stop_after {α : Type} (cfg : Config)
    (dec : String → Option α) (envs : Nat → RoundEnv) (r : Nat)
    (hbefore : ∀ k, k < r → (envs k).runningAtCheck = true)
    (hstop : (envs r).runningAtCheck = false) :
    ∀ (fuel round : Nat) (st : SupState), round ≤ r → r < round + fuel →
      attemptCount (keptAliveLoop cfg dec envs round fuel st).2 = r - round + 1 ∧
      (keptAliveLoop cfg dec envs round fuel st).1.LastError =
        (keptAliveLoop cfg dec envs round (r - round) st).1.LastError := by
  intro fuel
  induction fuel with
  | zero => intro round st h1 h2; omega
  | succ n ih =>
    intro round st h1 h2
    by_cases hEq : round = r
    · subst hEq
      rw [keptAliveLoop_succ_stop cfg dec envs round n st hstop]
      dsimp only
      constructor
      · rw [attemptCount_append, attemptCount_append, attemptCount_pre,
          attemptCount_mon]
        have h1a : attemptCount [Ev.attempt round] = 1 := rfl
        omega
      · rw [Nat.sub_self, keptAliveLoop_zero]
    · have hlt : round < r := by omega
      rw [keptAliveLoop_succ_go cfg dec envs round n st (hbefore round hlt)]
      obtain ⟨ihc, ihe⟩ := ih (round + 1)
        (stepState st round (runVMMonitoring dec (envs round)).2.2)
        (by omega) (by omega)
      dsimp only
      constructor
      · rw [attemptCount_append, attemptCount_append, attemptCount_append,
          attemptCount_pre, attemptCount_mon, ihc]
        have h1a : attemptCount [Ev.attempt round] = 1 := rfl
        omega
      · obtain ⟨m, hm⟩ : ∃ m, r - round = m + 1 := ⟨r - round - 1, by omega⟩
        rw [hm, keptAliveLoop_succ_go cfg dec envs round m st (hbefore round hlt)]
        dsimp only
        rw [ihe]
        have hsub : r - (round + 1) = m := by omega
        rw [hsub]

/-- C4: if an external stop clears the running flag during round `r` of
the retry loop, the exit's error is suppressed (the value sent on the
`finished` channel is nil), the loop performs no attempt beyond round
`r`, and `LastError` keeps exactly the value accumulated over the earlier
rounds — nothing is recorded from the final, externally caused exit. -/
theorem C4_stop_suppresses_exit {α : Type} (cfg : Config)
    (dec : String → Option α) (envs : Nat → RoundEnv) (vm : VM) (r : Nat)
    (hcmd : vm.MonitorCmd ≠ "") (hr : r < cfg.CmdRetryTimes.toNat)
    (hbefore : ∀ k, k < r → (envs k).runningAtCheck = true)
    (hstopW : (envs r).runningAtWait = false)
    (hstopC : (envs r).runningAtCheck = false) :
    (runVMMonitoring dec (envs r)).2.2 = none ∧
    attemptCount (RunKeptAliveProcess cfg dec envs vm).2.2 = r + 1 ∧
    (RunKeptAliveProcess cfg dec envs vm).2.1.LastError =
      (keptAliveLoop cfg dec envs 0 r
        { StopProcess := vm.StopProcess, LastError := vm.LastError }).1.LastError := by
  have hrun : RunKeptAliveProcess cfg dec envs vm =
      (none,
       (keptAliveLoop cfg dec envs 0 cfg.CmdRetryTimes.toNat
         { StopProcess := vm.StopProcess, LastError := vm.LastError }).1,
       (keptAliveLoop cfg dec envs 0 cfg.CmdRetryTimes.toNat
         { StopProcess := vm.StopProcess, LastError := vm.LastError }).2) := by
    unfold RunKeptAliveProcess
    rw [if_neg hcmd]
  obtain ⟨hc, he⟩ := keptAliveLoop_stop_after cfg dec envs r hbefore hstopC
    cfg.CmdRetryTimes.toNat 0
    { StopProcess := vm.StopProcess, LastError := vm.LastError }
    (by omega) (by omega)
  refine ⟨?_, ?_, ?_⟩
  · unfold runVMMonitoring
    rw [hstopW]
    simp
  · rw [hrun]
    dsimp only
    simpa using hc
  · rw [hrun]
    dsimp only
    simpa using he

/-! ### Fixtures for the supervisor claims -/

/-- Config fixture: two retry rounds, one-second delay, zero refresh. -/
def cfgC : Config := { RefreshInterval := 0, CmdRetryTimes := 2, CmdRetryDelay := 1 }

/-- A run that exits at once with an error while the workload stays
marked running. -/
def envFail : RoundEnv :=
  { lines := [], waitErr := some "exit status 1",
    runningAtWait := true, runningAtCheck := true }

/-- A run during which an external stop cleared the running flag. -/
def envStop : RoundEnv :=
  { lines := [], waitErr := some "signal: killed",
    runningAtWait := false, runningAtCheck := false }

/-- Every round fails while still running. -/
def envsFail : Nat → RoundEnv := fun _ => envFail

/-- Round 0 fails while running; an external stop lands during round 1. -/
def envsStopAt1 : Nat → RoundEnv := fun k => if k = 0 then envFail else envStop

/-- A JSON decoder oracle that rejects every line. -/
def decNone : String → Option Nat := fun _ => none

theorem C1_retry_budget_witness :
    (RunKeptAliveProcess cfgC decNone envsFail (vmK 7)).2.2 =
      failRunTrace cfgC.CmdRetryDelay cfgC.CmdRetryTimes.toNat ∧
    attemptCount (RunKeptAliveProcess cfgC decNone envsFail (vmK 7)).2.2 =
      cfgC.CmdRetryTimes.toNat ∧
    (RunKeptAliveProcess cfgC decNone envsFail (vmK 7)).1 = none :=
  C1_retry_budget cfgC decNone envsFail (vmK 7) (by decide) (by decide)
    (fun _ => ⟨rfl, rfl, rfl, rfl⟩)

theorem C4_stop_suppresses_exit_witness :
    (runVMMonitoring decNone (envsStopAt1 1)).2.2 = none ∧
    attemptCount (RunKeptAliveProcess cfgC decNone envsStopAt1 (vmK 7)).2.2 = 2 ∧
    (RunKeptAliveProcess cfgC decNone envsStopAt1 (vmK 7)).2.1.LastError =
      (keptAliveLoop cfgC decNone envsStopAt1 0 1
        { StopProcess := (vmK 7).StopProcess,
          LastError := (vmK 7).LastError }).1.LastError :=
  C4_stop_suppresses_exit cfgC decNone envsStopAt1 (vmK 7) 1 (by decide)
    (by decide) (by decide) (by decide) (by decide)

/-! ### C3: the cancel handle is never cleared -/

/-- C3 counterexample: after the retry budget is exhausted the cancel
handle is NOT null — the loop return path never clears `vm.StopProcess`
(part_005 lines 104-119). -/
theorem C3_counterexample :
    ¬ ((RunKeptAliveProcess cfgC decNone envsFail (vmK 7)).2.1.StopProcess
        = none) := by
  decide

/-- C3 (amended): the stored cancel handle is non-null from the first
attempt on and is never cleared: it is still non-null after the retry
budget is exhausted and `RunKeptAliveProcess` has returned, and
`StopVMMonitoring` invokes it but leaves it set, clearing only the
running flag of the stored entry. -/
theorem C3_cancel_handle_persists {α : Type} (cfg : Config)
    (dec : String → Option α) (envs : Nat → RoundEnv) (vm : VM)
    (reg : Registry) (id : Int) (w : VM) :
    (vm.MonitorCmd ≠ "" → 1 ≤ cfg.CmdRetryTimes →
      ((RunKeptAliveProcess cfg dec envs vm).2.1.StopProcess).isSome) ∧
    (rlook reg id = some w →
      rlook (StopVMMonitoring reg id).1 id = some { w with Running := false }) := by
  constructor
  · intro hcmd hN
    unfold RunKeptAliveProcess
    rw [if_neg hcmd]
    exact keptAliveLoop_handle cfg dec envs cfg.CmdRetryTimes.toNat 0 _ (by omega)
  · exact rlook_stop_self

theorem C3_cancel_handle_persists_witness :
    ((RunKeptAliveProcess cfgC decNone envsFail (vmK 7)).2.1.StopProcess).isSome ∧
    rlook (StopVMMonitoring reg0 5).1 5 = some { vmK 5 with Running := false } :=
  ⟨(C3_cancel_handle_persists cfgC decNone envsFail (vmK 7) reg0 5
      (vmK 5)).1 (by decide) (by decide),
   (C3_cancel_handle_persists cfgC decNone envsFail (vmK 7) reg0 5
      (vmK 5)).2 (by decide)⟩

theorem C10_zero_interval_stop_panics_witness :
    (Start oracle0 (New { RefreshInterval := 0, CmdRetryTimes := 2, CmdRetryDelay := 1 }) probe0).1 =
      { New { RefreshInterval := 0, CmdRetryTimes := 2, CmdRetryDelay := 1 } with
        knownVMs := (RefreshVMsMonitoring oracle0
          (New { RefreshInterval := 0, CmdRetryTimes := 2, CmdRetryDelay := 1 }).knownVMs probe0).1 } ∧
    (Start oracle0 (New { RefreshInterval := 0, CmdRetryTimes := 2, CmdRetryDelay := 1 }) probe0).1.ticker = none ∧
    Stop (Start oracle0 (New { RefreshInterval := 0, CmdRetryTimes := 2, CmdRetryDelay := 1 }) probe0).1
      = Except.error GoPanic.nilTicker :=
  C10_zero_interval_stop_panics oracle0
    (New { RefreshInterval := 0, CmdRetryTimes := 2, CmdRetryDelay := 1 }) probe0 rfl rfl

end pve
